import Mathlib

/-!
Verification of the `west` front-end command router (`src/west/main.py`).

This file gives a shallow embedding of the routing / dispatch / help /
error-taxonomy machinery of `main.py` and proves the specified properties
about it.  Machine-level details that live outside the visible source
(`os.path.abspath`, the set of built-in command class names defined in
`west.commands.project`) are treated as parameters of the embedding.
-/

namespace West

/-! ### String helpers

Python string operations used by `main.py` (`len`, slicing, `str.split()`,
`' '.join`), modelled over `String.data` so that everything reduces
structurally in the kernel. -/

/-- Length of a string in characters (Python `len`). -/
def strLen (s : String) : Nat := s.data.length

/-- `s[n:]` in Python: drop the first `n` characters. -/
def strDrop (s : String) (n : Nat) : String := ⟨s.data.drop n⟩

/-- A run of `n` spaces (Python `' ' * n`). -/
def spaces (n : Nat) : String := ⟨List.replicate n ' '⟩

/-- Helper for `splitWords`: accumulates the current word (reversed). -/
def splitWordsAux : List Char → List Char → List String
  | [], cur => if cur = [] then [] else [String.mk cur.reverse]
  | c :: rest, cur =>
    if c.isWhitespace then
      (if cur = [] then [] else [String.mk cur.reverse]) ++ splitWordsAux rest []
    else
      splitWordsAux rest (c :: cur)

/-- Python `str.split()` with no argument: split on runs of whitespace,
dropping empty pieces. -/
def splitWords (s : String) : List String := splitWordsAux s.data []

/-- Python `' '.join(words)`. -/
def joinSpace : List String → String
  | [] => ""
  | [w] => w
  | w :: rest => w ++ " " ++ joinSpace rest

/-! ### Zephyr-base resolver (`set_zephyr_base`, main.py lines 360-428)

The resolver is a pure precedence function over
  * `clo`       : the `--zephyr-base` command line argument (`args.zephyr_base`,
                  `None` when not given),
  * `zb_env`    : `os.environ.get('ZEPHYR_BASE')`,
  * `zb_prefer` : config value `zephyr.base-prefer` (`None` fallback),
  * `zb_config` : config value `zephyr.base` (`None` fallback),
followed by a single environment write.  `os.path.abspath` is a parameter
`abspath` of the embedding. -/

/-- Which source supplied the resolved value (`zb_origin` in the code;
`none`/`unset` when nothing resolved). -/
inductive ZbOrigin
  | commandline
  | env
  | configfile
  | unset
  deriving DecidableEq, Repr

/-- Result of the resolution part of `set_zephyr_base`: the chosen value
`zb`, its origin, how many warnings `log.wrn` emitted, and whether
`log.err` was called. -/
structure ZbResult where
  value : Option String
  origin : ZbOrigin
  warnings : Nat
  errored : Bool
  deriving DecidableEq, Repr

/-- Python truthiness of `args.zephyr_base` in `if args.zephyr_base:`:
`None` and the empty string are falsy. -/
def zbTruthy : Option String → Bool
  | none => false
  | some s => s ≠ ""

/-- The resolution logic of `set_zephyr_base` (main.py lines 374-423),
transcribed branch by branch.  In the command-line branch the code stores
`os.path.abspath(args.zephyr_base)`; the env/config branches store the raw
value.  One warning is logged in branch 4 when the config value is also
set to a different absolute path; `log.err` is called when nothing
resolves. -/
def set_zephyr_base_resolve (abspath : String → String)
    (clo zb_env : Option String) (zb_prefer : Option String)
    (zb_config : Option String) : ZbResult :=
  if zbTruthy clo then
    { value := some (abspath (clo.getD "")), origin := .commandline,
      warnings := 0, errored := false }
  else if zb_prefer = some "env" ∧ zb_env.isSome then
    { value := zb_env, origin := .env, warnings := 0, errored := false }
  else if zb_prefer = some "configfile" ∧ zb_config.isSome then
    { value := zb_config, origin := .configfile, warnings := 0, errored := false }
  else if zb_env.isSome then
    { value := zb_env, origin := .env,
      warnings :=
        match zb_config, zb_env with
        | some c, some e => if abspath c ≠ abspath e then 1 else 0
        | _, _ => 0,
      errored := false }
  else if zb_config.isSome then
    { value := zb_config, origin := .configfile, warnings := 0, errored := false }
  else
    { value := none, origin := .unset, warnings := 0, errored := true }

/-- The six-rule precedence table exactly as the spec states it (§4.4),
with rule 1 firing whenever the command-line override is *present*
(`isSome`).  Rule 1 stores the absolutized value, matching the spec's
side-effect note that the resolved value is written as an absolute path. -/
def zephyrBaseSpecTable (abspath : String → String)
    (clo zb_env : Option String) (zb_prefer : Option String)
    (zb_config : Option String) : ZbResult :=
  match clo with
  | some v =>
      { value := some (abspath v), origin := .commandline,
        warnings := 0, errored := false }
  | none =>
      if zb_prefer = some "env" ∧ zb_env.isSome then
        { value := zb_env, origin := .env, warnings := 0, errored := false }
      else if zb_prefer = some "configfile" ∧ zb_config.isSome then
        { value := zb_config, origin := .configfile, warnings := 0, errored := false }
      else if zb_env.isSome then
        { value := zb_env, origin := .env,
          warnings :=
            match zb_config, zb_env with
            | some c, some e => if abspath c ≠ abspath e then 1 else 0
            | _, _ => 0,
          errored := false }
      else if zb_config.isSome then
        { value := zb_config, origin := .configfile, warnings := 0, errored := false }
      else
        { value := none, origin := .unset, warnings := 0, errored := true }

/-- The spec table amended so that rule 1 fires only for a *non-empty*
command-line override; an empty override falls through to rules 2-6. -/
def zephyrBaseSpecTableAmended (abspath : String → String)
    (clo zb_env : Option String) (zb_prefer : Option String)
    (zb_config : Option String) : ZbResult :=
  match clo with
  | some v =>
      if v ≠ "" then
        { value := some (abspath v), origin := .commandline,
          warnings := 0, errored := false }
      else
        zephyrBaseSpecTable abspath none zb_env zb_prefer zb_config
  | none => zephyrBaseSpecTable abspath none zb_env zb_prefer zb_config

/-! ### Help formatter (`WestArgumentParser.format_thing_and_help`,
main.py lines 202-233)

`textwrap.wrap` is modelled as a greedy single-pass filler, accurate for
the formatter's inputs (the help text is whitespace-normalized first, and
no word is wider than the available room, which is the regime all claims
live in). -/

/-- Greedy line filler: the model of
`textwrap.wrap(text, width, initial_indent=ind, subsequent_indent=ind)` on
an already word-split text.  A word is added to the current line when the
line, one separating space, and the word still fit in `width`. -/
def fillGreedyAux (width : Nat) (ind : String) (cur : String) :
    List String → List String
  | [] => [cur]
  | w :: ws =>
    if strLen cur + 1 + strLen w ≤ width then
      fillGreedyAux width ind (cur ++ " " ++ w) ws
    else
      cur :: fillGreedyAux width ind (ind ++ w) ws

/-- `textwrap.wrap` model: each produced line carries the indent `ind`;
the empty text produces no lines (Python returns `[]`). -/
def fillGreedy (width : Nat) (ind : String) : List String → List String
  | [] => []
  | w :: ws => fillGreedyAux width ind (ind ++ w) ws

/-- `help_offset = min(max(10, width - 20), 24)` (line 205). -/
def helpOffset (width : Nat) : Nat := min (max 10 (width - 20)) 24

/-- `format_thing_and_help` (lines 202-233): the list of lines appended for
one "thing + help" pair.  With no help string, just the thing.  Otherwise
the help is whitespace-normalized, wrapped with `help_offset` spaces of
indent, and either the thing goes on its own row (when
`len(thing) > help_offset - 1`) or the first help line is packed onto the
thing's row (`help_lines[0] = thing + help_lines[0][thinglen:]`).
Python raises `IndexError` in the packed branch when the normalized help
is empty (`textwrap.wrap` returns `[]` there); the theorems below assume a
non-empty help text, so the `[]` fallback of this model is never reached. -/
def format_thing_and_help (thing : String) (help : Option String)
    (width : Nat) : List String :=
  let help_offset := helpOffset width
  let help_indent := spaces help_offset
  let thinglen := strLen thing
  match help with
  | none => [thing]
  | some h =>
    let help_lines := fillGreedy width help_indent (splitWords h)
    if thinglen > help_offset - 1 then
      thing :: help_lines
    else
      match help_lines with
      | [] => [thing]
      | l0 :: rest => (thing ++ strDrop l0 thinglen) :: rest

/-- The layout as the claim words it: packed when
`len(thing) < help_offset - 1`, otherwise the thing on its own row. -/
def claimThingLayout (thing : String) (help : Option String)
    (width : Nat) : List String :=
  let help_offset := helpOffset width
  let help_indent := spaces help_offset
  let thinglen := strLen thing
  match help with
  | none => [thing]
  | some h =>
    let help_lines := fillGreedy width help_indent (splitWords h)
    if thinglen < help_offset - 1 then
      match help_lines with
      | [] => [thing]
      | l0 :: rest => (thing ++ strDrop l0 thinglen) :: rest
    else
      thing :: help_lines

/-- The layout with the amended threshold: packed exactly when
`len(thing) ≤ help_offset - 1` (equivalently, strictly less than
`help_offset`), otherwise the thing on its own row. -/
def amendedThingLayout (thing : String) (help : Option String)
    (width : Nat) : List String :=
  let help_offset := helpOffset width
  let help_indent := spaces help_offset
  let thinglen := strLen thing
  match help with
  | none => [thing]
  | some h =>
    let help_lines := fillGreedy width help_indent (splitWords h)
    if thinglen ≤ help_offset - 1 then
      match help_lines with
      | [] => [thing]
      | l0 :: rest => (thing ++ strDrop l0 thinglen) :: rest
    else
      thing :: help_lines

/-- The environment write at the end of `set_zephyr_base` (lines 425-426):
`os.environ['ZEPHYR_BASE'] = os.path.abspath(zb)` when a value resolved,
nothing otherwise.  The process environment is modelled as a total map
from variable names to optional values. -/
def set_zephyr_base_env (abspath : String → String)
    (environ : String → Option String) (r : ZbResult) :
    String → Option String :=
  match r.value with
  | some zb => fun k => if k = "ZEPHYR_BASE" then some (abspath zb) else environ k
  | none => environ

/-! ### External command specs and the collision filter
(`get_external_commands`, main.py lines 505-532)

An `ExtSpec` models `WestExtCommandSpec`: a command name, its one-line
help, the owning project's name, and the deferred factory.  The factory is
an opaque payload of arbitrary type `α`: the router only invokes it inside
`ext_command_handler`, so the build/help paths must be independent of it
(claim C6 below).  `BUILTIN_COMMAND_NAMES` (lines 57-61) is the set of
built-in and hidden command names plus the virtual name `'help'`; the
individual names come from classes outside `main.py`, so they are a
parameter `cmdNames`. -/

/-- External command spec: `{name, help, project, factory}`. -/
structure ExtSpec (α : Type) where
  name : String
  help : Option String
  projectName : String
  factory : α
  deriving DecidableEq, Repr

/-- Why a contributed command was dropped by the filter. -/
inductive DropReason
  | builtin
  | duplicate
  deriving DecidableEq, Repr

/-- One `log.wrn` record emitted by the filter: the owning project, the
dropped command name, and why. -/
structure FilterWarning where
  project : String
  command : String
  reason : DropReason
  deriving DecidableEq, Repr

/-- `BUILTIN_COMMAND_NAMES` (lines 57-61): the virtual `'help'` command
plus the names of all built-in and hidden commands. -/
def BUILTIN_COMMAND_NAMES (cmdNames : List String) : List String :=
  "help" :: cmdNames

/-- The inner loop of `get_external_commands` (lines 515-529) over one
project's spec list: a spec whose name is a built-in name is dropped with
a warning; a spec whose name is already in `taken` (the
`extension_commands` set) is dropped with a warning; otherwise it is
accepted and its name added to `taken`.  Returns the filtered list, the
grown `taken` set, and the warnings in emission order. -/
def filterSpecList {α : Type} (builtins : List String) :
    List (ExtSpec α) → List String →
    List (ExtSpec α) × List String × List FilterWarning
  | [], taken => ([], taken, [])
  | s :: rest, taken =>
    if s.name ∈ builtins then
      let r := filterSpecList builtins rest taken
      (r.1, r.2.1, ⟨s.projectName, s.name, .builtin⟩ :: r.2.2)
    else if s.name ∈ taken then
      let r := filterSpecList builtins rest taken
      (r.1, r.2.1, ⟨s.projectName, s.name, .duplicate⟩ :: r.2.2)
    else
      let r := filterSpecList builtins rest (s.name :: taken)
      (s :: r.1, r.2.1, r.2.2)

/-- The outer loop of `get_external_commands` (lines 512-530): the
externals table in project iteration order, each project's list replaced
by its filtered list (`externals[path] = filtered`), the `taken` set
threaded across projects. -/
def filterTable {α : Type} (builtins : List String) :
    List (String × List (ExtSpec α)) → List String →
    List (String × List (ExtSpec α)) × List FilterWarning
  | [], _ => ([], [])
  | (path, specs) :: rest, taken =>
    let r := filterSpecList builtins specs taken
    let r2 := filterTable builtins rest r.2.1
    ((path, r.1) :: r2.1, r.2.2 ++ r2.2)

/-- All contributed command names of a table, in project iteration order
then per-project declaration order. -/
def extNames {α : Type} : List (String × List (ExtSpec α)) → List String
  | [] => []
  | p :: rest => p.2.map (fun s => s.name) ++ extNames rest

/-- First-occurrence deduplication relative to an already-seen set: keeps
each name's first occurrence not already in `seen`, in order.  This is the
specification-side description of the filter's duplicate policy. -/
def dedupFirstAux (seen : List String) : List String → List String
  | [] => []
  | n :: rest =>
    if n ∈ seen then dedupFirstAux seen rest
    else n :: dedupFirstAux (n :: seen) rest

/-- The seen-set after `dedupFirstAux` has processed a list. -/
def dedupSeen (seen : List String) : List String → List String
  | [] => seen
  | n :: rest =>
    if n ∈ seen then dedupSeen seen rest else dedupSeen (n :: seen) rest

/-- Why discovery of external commands may fail before filtering:
`MalformedConfig` or `FileNotFoundError`, the two exceptions `main` is
prepared for (lines 546-549). -/
inductive DiscoveryError
  | malformedConfig
  | fileNotFound
  deriving DecidableEq, Repr

/-- `get_external_commands` (lines 505-532): when config
`commands.allow_external` (fallback `True`) is false, return the empty
table without attempting discovery; otherwise run discovery (which may
raise) and filter the result. -/
def get_external_commands {α : Type} (allowExternal : Option Bool)
    (discover : Except DiscoveryError (List (String × List (ExtSpec α))))
    (builtins : List String) :
    Except DiscoveryError
      (List (String × List (ExtSpec α)) × List FilterWarning) :=
  if allowExternal.getD true = false then
    .ok ([], [])
  else
    discover.map (fun t => filterTable builtins t [])

/-- The `try`/`except` around `get_external_commands` in `main`
(lines 546-549): a `MalformedConfig` or `FileNotFoundError` is swallowed
and the externals table is simply empty. -/
def main_load_externals {α : Type} (allowExternal : Option Bool)
    (discover : Except DiscoveryError (List (String × List (ExtSpec α))))
    (builtins : List String) :
    List (String × List (ExtSpec α)) × List FilterWarning :=
  match get_external_commands allowExternal discover builtins with
  | .ok t => t
  | .error _ => ([], [])

/-! ### Deferred registration and the externals help section
(`add_ext_command_entry` lines 301-307, `parse_args` lines 467-472,
`format_help` lines 160-172) -/

/-- The placeholder subparser created by `add_ext_command_entry`: it
exists "only to register the name", with `add_help=False` and no options
added. -/
structure PlaceholderParser where
  name : String
  addHelp : Bool
  options : List String
  deriving DecidableEq, Repr

/-- `add_ext_command_entry(subparser_gen, spec)` (lines 301-307). -/
def add_ext_command_entry {α : Type} (spec : ExtSpec α) : PlaceholderParser :=
  { name := spec.name, addHelp := false, options := [] }

/-- The external-command registration loop of `parse_args`
(lines 467-472): one placeholder subparser per spec, in table order. -/
def register_externals {α : Type} :
    List (String × List (ExtSpec α)) → List PlaceholderParser
  | [] => []
  | p :: rest =>
    p.2.map (fun s => add_ext_command_entry s) ++ register_externals rest

/-- `format_external_spec` (lines 198-200): format `'  ' + name + ':'`
against the spec's help. -/
def format_external_spec {α : Type} (spec : ExtSpec α) (width : Nat) :
    List String :=
  format_thing_and_help ("  " ++ spec.name ++ ":") spec.help width

/-- The lines for one project's spec list in the externals help section
(the inner loop of `format_help` lines 170-171). -/
def format_external_specs {α : Type} (width : Nat) :
    List (ExtSpec α) → List String
  | [] => []
  | s :: rest => format_external_spec s width ++ format_external_specs width rest

/-- The externals section of `format_help` (lines 160-172): for each
project with a non-empty filtered list, a header line naming the project
path, one formatted entry per spec, and a blank line. -/
def format_external_section {α : Type} (width : Nat) :
    List (String × List (ExtSpec α)) → List String
  | [] => []
  | p :: rest =>
    (if p.2.isEmpty then []
     else
       ("commands from project at \"" ++ p.1 ++ "\":") ::
         format_external_specs width p.2 ++ [""]) ++
      format_external_section width rest

/-- Replace every spec's factory payload (used to state that building the
parser and rendering help are independent of the factories). -/
def mapFactories {α β : Type} (f : α → β)
    (externals : List (String × List (ExtSpec α))) :
    List (String × List (ExtSpec β)) :=
  externals.map (fun p => (p.1, p.2.map (fun s =>
    { name := s.name, help := s.help, projectName := s.projectName,
      factory := f s.factory })))

/-! ### Top-level argument parsing (`_make_parsers` lines 262-294,
`parse_args` lines 457-502)

The grammar built by `_make_parsers` has the options `-h` `--help`
(a `WestHelpAction` that prints top-level help and exits 0),
`-z` `--zephyr-base PATH`, `-v` `--verbose` (a counter), `-V` `--version`
(store-true), and a `<command>` subparser positional.  Every registered
subparser (built-in, hidden, external placeholder, and `help`) sets a
`handler` default, so `handler` is unbound exactly when no command token
was given.  `parse_known_args` collects unrecognized option strings into
the `unknown` remainder, exits 0 from the help action, and exits 2 with a
usage message on a positional that is not a registered command (invalid
choice) or a missing option value. -/

/-- The top-level namespace produced by parsing (`args`). -/
structure TopArgs where
  zephyr_base : Option String
  verbose : Nat
  version : Bool
  command : Option String
  deriving DecidableEq, Repr

/-- How the scan of the raw argument vector can stop early. -/
inductive ScanStop
  | helpRequested
  | invalidChoice (token : String)
  | missingValue
  deriving DecidableEq, Repr

/-- Left-to-right scan of the raw argument vector against the top-level
grammar.  Once a registered command token is found, the rest of the vector
belongs to that command's subparser and is returned as the remainder. -/
def scanArgs (names : List String) :
    List String → TopArgs → List String →
    Except ScanStop (TopArgs × List String)
  | [], acc, unknown => .ok (acc, unknown.reverse)
  | tok :: rest, acc, unknown =>
    if tok = "-h" ∨ tok = "--help" then
      .error .helpRequested
    else if tok = "-V" ∨ tok = "--version" then
      scanArgs names rest { acc with version := true } unknown
    else if tok = "-v" ∨ tok = "--verbose" then
      scanArgs names rest { acc with verbose := acc.verbose + 1 } unknown
    else if tok = "-z" ∨ tok = "--zephyr-base" then
      match rest with
      | [] => .error .missingValue
      | v :: rest2 => scanArgs names rest2 { acc with zephyr_base := some v } unknown
    else if tok ∈ names then
      .ok ({ acc with command := some tok }, unknown.reverse ++ rest)
    else if tok.startsWith "-" then
      scanArgs names rest acc (tok :: unknown)
    else
      .error (.invalidChoice tok)

/-- The observable outcome of `parse_args`: either it returns parsed
arguments with a bound handler, or the process exits during/right after
parsing (`exited code usageToStderr`). -/
inductive ParseOutcome
  | parsed (args : TopArgs) (unknown : List String)
  | exited (code : Nat) (usageToStderr : Bool)
  deriving DecidableEq, Repr

/-- `parse_args` (lines 457-502) over the mini-grammar: parse, then exit 0
on `--version` (line 486) or on the help action, exit 2 on a parser
rejection, exit 1 printing top-level usage to stderr when no handler was
bound (lines 498-500), and return the parsed arguments otherwise.
`names` is the set of registered command names: built-ins and hidden
commands, external placeholders, and `help`. -/
def parse_args_model (names : List String) (argv : List String) :
    ParseOutcome :=
  match scanArgs names argv
      { zephyr_base := none, verbose := 0, version := false, command := none }
      [] with
  | .error .helpRequested => .exited 0 false
  | .error (.invalidChoice _) => .exited 2 true
  | .error .missingValue => .exited 2 true
  | .ok (args, unknown) =>
    if args.version then .exited 0 false
    else
      match args.command with
      | none => .exited 1 true
      | some _ => .parsed args unknown

/-- The claim's invariant, as stated: after parsing, either a handler is
bound and parsing returns normally, or the process exits 1 after printing
usage to stderr. -/
def c9ClaimProperty (o : ParseOutcome) : Prop :=
  (∃ args unknown, o = ParseOutcome.parsed args unknown) ∨
    o = ParseOutcome.exited 1 true

/-! ### Main pipeline ordering (`parse_args` lines 494-502, `main`
lines 553-558)

`parse_args` calls `set_zephyr_base(args)` after the version check and
before the handler check; `main` invokes `args.handler` only after
`parse_args` returns.  The trace of observable events on the successful
dispatch path is the resolver's warnings/error, its environment write, and
then the dispatch. -/

/-- Observable events of one invocation, in order. -/
inductive Ev
  | warnLog
  | errLog
  | envWrite (key value : String)
  | dispatch
  deriving DecidableEq, Repr

/-- The events emitted by `set_zephyr_base`: the warning or error logged
during resolution, then the environment write (lines 425-426) when a value
resolved. -/
def set_zephyr_base_events (abspath : String → String) (r : ZbResult) :
    List Ev :=
  (List.replicate r.warnings .warnLog) ++
    (if r.errored then [Ev.errLog] else []) ++
    (match r.value with
     | some zb => [Ev.envWrite "ZEPHYR_BASE" (abspath zb)]
     | none => [])

/-- The event trace of `main` on the path where a handler is bound and
dispatched: everything `set_zephyr_base` does happens inside `parse_args`,
strictly before `args.handler(args, unknown)` runs. -/
def main_dispatch_trace (abspath : String → String) (r : ZbResult) :
    List Ev :=
  set_zephyr_base_events abspath r ++ [Ev.dispatch]

/-! ### Top-level error taxonomy and restart loop (`main`,
main.py lines 557-603)

The result of `args.handler(args, unknown)` is classified by the chain of
`except` clauses.  `errno.EIO` is 5.  The child process spawned on
`WestUpdated` is modelled by its outcome: either the blocking
`proc.communicate()` was interrupted by `KeyboardInterrupt`, or the child
finished with `proc.returncode` (which Python reports as `None` when it
cannot be determined). -/

/-- How the dispatched command's `run` finished, as seen by `main`'s
`try`/`except` chain. -/
inductive DispatchResult
  | ok
  | westUpdated
  | keyboardInterrupt
  | calledProcessError (returncode : Int) (status : Int) (cmdline : List String)
  | extensionError (returncode : Int) (hint : Option String)
  | contextError (returncode : Int) (reasonArgs : List String)
  | commandError (returncode : Int)
  deriving DecidableEq, Repr

/-- Outcome of the restart child spawned on `WestUpdated`. -/
inductive ChildOutcome
  | interrupted
  | finished (returncode : Option Int)
  deriving DecidableEq, Repr

/-- `errno.EIO`. -/
def errnoEIO : Int := 5

/-- The observable effects of `main`'s exception handling: the command
line spawned for a restart (if any), the `log.err` messages (each a list
of arguments), whether a traceback was printed, whether the
run-with-`-v`-for-a-stack-trace hint was printed, and the exit code
(`none` when `main` returns normally). -/
structure GovernorEffects where
  spawned : Option (List String)
  errMsgs : List (List String)
  traceShown : Bool
  hintShown : Bool
  exit : Option Int
  deriving DecidableEq, Repr

/-- The `try`/`except` chain of `main` (lines 557-603).  `executable` is
`sys.argv[0]`, `argv` the argument vector `main` received, `verbose` the
parsed verbosity, `commandName` the parsed `args.command`, and `child` the
outcome of the restart child (consulted only on `WestUpdated`). -/
def main_governor (executable : String) (argv : List String)
    (verbose : Nat) (commandName : String) (child : ChildOutcome) :
    DispatchResult → GovernorEffects
  | .ok =>
    { spawned := none, errMsgs := [], traceShown := false,
      hintShown := false, exit := none }
  | .westUpdated =>
    match child with
    | .interrupted =>
      { spawned := some (executable :: argv), errMsgs := [],
        traceShown := false, hintShown := false, exit := some 0 }
    | .finished rc =>
      { spawned := some (executable :: argv), errMsgs := [],
        traceShown := false, hintShown := false,
        exit := some (match rc with | none => errnoEIO | some c => c) }
  | .keyboardInterrupt =>
    { spawned := none, errMsgs := [], traceShown := false,
      hintShown := false, exit := some 0 }
  | .calledProcessError rc status cmdline =>
    { spawned := none,
      errMsgs := [["command exited with status", toString status] ++ cmdline],
      traceShown := verbose > 0, hintShown := ¬ verbose > 0,
      exit := some rc }
  | .extensionError rc hint =>
    { spawned := none,
      errMsgs := [["external command", commandName,
        "was improperly defined and could not be run"] ++
          (match hint with | some h => [h] | none => [])],
      traceShown := verbose > 0, hintShown := ¬ verbose > 0,
      exit := some rc }
  | .contextError rc reasonArgs =>
    { spawned := none,
      errMsgs := [["command", commandName,
        "cannot be run in this context:"] ++ reasonArgs],
      traceShown := false, hintShown := false, exit := some rc }
  | .commandError rc =>
    { spawned := none, errMsgs := [], traceShown := false,
      hintShown := false, exit := some rc }

/-! ## Helper lemmas -/

/-- With no command-line override, the resolver never reports the
command-line origin. -/
theorem resolve_none_origin_ne_commandline (abspath : String → String)
    (zb_env zb_prefer zb_config : Option String) :
    (set_zephyr_base_resolve abspath none zb_env zb_prefer zb_config).origin ≠
      ZbOrigin.commandline := by
  unfold set_zephyr_base_resolve
  split
  · simp [zbTruthy] at *
  · split
    · simp
    · split
      · simp
      · split
        · simp
        · split <;> simp

/-- The resolver resolves no value exactly in the branch that calls
`log.err`. -/
theorem resolve_value_none_errored (abspath : String → String)
    (clo zb_env zb_prefer zb_config : Option String)
    (h : (set_zephyr_base_resolve abspath clo zb_env zb_prefer zb_config).value
          = none) :
    (set_zephyr_base_resolve abspath clo zb_env zb_prefer zb_config).errored
      = true := by
  unfold set_zephyr_base_resolve at *
  split at h
  · simp at h
  · split at h
    · simp_all
    · split at h
      · simp_all
      · split at h
        · simp_all
        · split at h <;> simp_all

/-- `main`'s dispatch event never occurs among the events of
`set_zephyr_base`. -/
theorem dispatch_not_mem_zb_events (abspath : String → String)
    (r : ZbResult) : Ev.dispatch ∉ set_zephyr_base_events abspath r := by
  intro h
  unfold set_zephyr_base_events at h
  rcases List.mem_append.mp h with h1 | h2
  · rcases List.mem_append.mp h1 with h3 | h4
    · exact absurd (List.eq_of_mem_replicate h3) (by simp)
    · split at h4 <;> simp_all
  · split at h2 <;> simp_all

/-- `dedupFirstAux` only consults the membership of its seen-set. -/
theorem dedupFirstAux_congr (l : List String) :
    ∀ s1 s2 : List String, (∀ x, x ∈ s1 ↔ x ∈ s2) →
      dedupFirstAux s1 l = dedupFirstAux s2 l := by
  induction l with
  | nil => intro s1 s2 _; rfl
  | cons n rest ih =>
    intro s1 s2 h
    unfold dedupFirstAux
    by_cases hn : n ∈ s1
    · rw [if_pos hn, if_pos ((h n).1 hn)]
      exact ih s1 s2 h
    · rw [if_neg hn, if_neg (fun c => hn ((h n).2 c))]
      rw [ih (n :: s1) (n :: s2) (fun x => by simp [h x])]

/-- The evolved seen-set of `dedupFirstAux` contains exactly the kept
names and the original seen-set. -/
theorem dedupSeen_mem (l : List String) :
    ∀ (seen : List String) (x : String),
      x ∈ dedupSeen seen l ↔ x ∈ dedupFirstAux seen l ∨ x ∈ seen := by
  induction l with
  | nil => intro seen x; simp [dedupSeen, dedupFirstAux]
  | cons n rest ih =>
    intro seen x
    unfold dedupSeen dedupFirstAux
    by_cases hn : n ∈ seen
    · rw [if_pos hn, if_pos hn]
      exact ih seen x
    · rw [if_neg hn, if_neg hn]
      rw [ih (n :: seen) x]
      simp only [List.mem_cons]
      tauto

/-- Step equation of `dedupFirstAux` when the head is already seen. -/
theorem dedupFirstAux_cons_mem {n : String} {seen : List String}
    (hn : n ∈ seen) (l : List String) :
    dedupFirstAux seen (n :: l) = dedupFirstAux seen l := by
  unfold dedupFirstAux
  rw [if_pos hn]
  cases l <;> rfl

/-- Step equation of `dedupFirstAux` when the head is new. -/
theorem dedupFirstAux_cons_not_mem {n : String} {seen : List String}
    (hn : n ∉ seen) (l : List String) :
    dedupFirstAux seen (n :: l) = n :: dedupFirstAux (n :: seen) l := by
  unfold dedupFirstAux
  rw [if_neg hn]
  cases l <;> rfl

/-- Step equation of `dedupSeen` when the head is already seen. -/
theorem dedupSeen_cons_mem {n : String} {seen : List String}
    (hn : n ∈ seen) (l : List String) :
    dedupSeen seen (n :: l) = dedupSeen seen l := by
  unfold dedupSeen
  rw [if_pos hn]
  cases l <;> rfl

/-- Step equation of `dedupSeen` when the head is new. -/
theorem dedupSeen_cons_not_mem {n : String} {seen : List String}
    (hn : n ∉ seen) (l : List String) :
    dedupSeen seen (n :: l) = dedupSeen (n :: seen) l := by
  unfold dedupSeen
  rw [if_neg hn]
  cases l <;> rfl

/-- `dedupFirstAux` distributes over append, evolving the seen-set. -/
theorem dedupFirstAux_append (l1 : List String) :
    ∀ (seen l2 : List String),
      dedupFirstAux seen (l1 ++ l2) =
        dedupFirstAux seen l1 ++ dedupFirstAux (dedupSeen seen l1) l2 := by
  induction l1 with
  | nil => intro seen l2; rfl
  | cons n rest ih =>
    intro seen l2
    simp only [List.cons_append]
    by_cases hn : n ∈ seen
    · rw [dedupFirstAux_cons_mem hn, dedupFirstAux_cons_mem hn,
        dedupSeen_cons_mem hn]
      exact ih seen l2
    · rw [dedupFirstAux_cons_not_mem hn, dedupFirstAux_cons_not_mem hn,
        dedupSeen_cons_not_mem hn]
      rw [ih (n :: seen) l2]
      rfl

/-- The output of `dedupFirstAux` has no duplicates and avoids the
seen-set. -/
theorem dedupFirstAux_nodup (l : List String) :
    ∀ seen : List String,
      (dedupFirstAux seen l).Nodup ∧
        ∀ n ∈ dedupFirstAux seen l, n ∉ seen := by
  induction l with
  | nil => intro seen; simp [dedupFirstAux]
  | cons n rest ih =>
    intro seen
    unfold dedupFirstAux
    by_cases hn : n ∈ seen
    · simpa [hn] using ih seen
    · rw [if_neg hn]
      obtain ⟨hnd, hmem⟩ := ih (n :: seen)
      refine ⟨List.nodup_cons.mpr
        ⟨fun hc => (hmem n hc) (List.mem_cons_self n _), hnd⟩, ?_⟩
      intro m hm
      rcases List.mem_cons.mp hm with h1 | h2
      · exact h1 ▸ hn
      · exact fun hs => (hmem m h2) (List.mem_cons_of_mem _ hs)

/-- Everything `dedupFirstAux` keeps came from the input list. -/
theorem dedupFirstAux_subset (l : List String) :
    ∀ (seen : List String) (n : String),
      n ∈ dedupFirstAux seen l → n ∈ l := by
  induction l with
  | nil => intro seen n h; simp [dedupFirstAux] at h
  | cons m rest ih =>
    intro seen n h
    unfold dedupFirstAux at h
    by_cases hm : m ∈ seen
    · rw [if_pos hm] at h
      exact List.mem_cons_of_mem _ (ih seen n h)
    · rw [if_neg hm] at h
      rcases List.mem_cons.mp h with h1 | h2
      · exact h1 ▸ List.mem_cons_self m rest
      · exact List.mem_cons_of_mem _ (ih (m :: seen) n h2)

/-- The names accepted from one project's spec list are exactly the
first occurrences, relative to the already-taken set, of the contributed
names that are not built-in names. -/
theorem filterSpecList_names {α : Type} (b : List String)
    (specs : List (ExtSpec α)) :
    ∀ taken : List String,
      (filterSpecList b specs taken).1.map (fun s => s.name) =
        dedupFirstAux taken
          ((specs.map (fun s => s.name)).filter (fun n => decide (n ∉ b))) := by
  induction specs with
  | nil => intro taken; rfl
  | cons s rest ih =>
    intro taken
    unfold filterSpecList
    by_cases hb : s.name ∈ b
    · rw [if_pos hb]
      simpa [hb] using ih taken
    · rw [if_neg hb]
      by_cases ht : s.name ∈ taken
      · rw [if_pos ht]
        simpa [hb, dedupFirstAux, ht] using ih taken
      · rw [if_neg ht]
        simpa [hb, dedupFirstAux, ht] using ih (s.name :: taken)

/-- The taken-set after one project's filtering holds exactly the names
accepted there plus the previously taken names. -/
theorem filterSpecList_taken_mem {α : Type} (b : List String)
    (specs : List (ExtSpec α)) :
    ∀ (taken : List String) (n : String),
      n ∈ (filterSpecList b specs taken).2.1 ↔
        n ∈ (filterSpecList b specs taken).1.map (fun s => s.name) ∨
          n ∈ taken := by
  induction specs with
  | nil => intro taken n; simp [filterSpecList]
  | cons s rest ih =>
    intro taken n
    unfold filterSpecList
    by_cases hb : s.name ∈ b
    · rw [if_pos hb]
      simpa using ih taken n
    · rw [if_neg hb]
      by_cases ht : s.name ∈ taken
      · rw [if_pos ht]
        simpa using ih taken n
      · rw [if_neg ht]
        have := ih (s.name :: taken) n
        simp only [List.mem_cons] at this
        simp only [List.map_cons, List.mem_cons]
        rw [this]
        tauto

/-- Every spec of one project's list is either accepted or warned
about. -/
theorem filterSpecList_length {α : Type} (b : List String)
    (specs : List (ExtSpec α)) :
    ∀ taken : List String,
      specs.length =
        (filterSpecList b specs taken).1.length +
          (filterSpecList b specs taken).2.2.length := by
  induction specs with
  | nil => intro taken; rfl
  | cons s rest ih =>
    intro taken
    unfold filterSpecList
    by_cases hb : s.name ∈ b
    · rw [if_pos hb]
      have := ih taken
      simp only [List.length_cons]
      omega
    · rw [if_neg hb]
      by_cases ht : s.name ∈ taken
      · rw [if_pos ht]
        have := ih taken
        simp only [List.length_cons]
        omega
      · rw [if_neg ht]
        have := ih (s.name :: taken)
        simp only [List.length_cons]
        omega

/-- The surviving names of the whole filtered table are exactly the
first occurrences, relative to the initial taken-set, of the contributed
names that are not built-in names. -/
theorem filterTable_names {α : Type} (b : List String)
    (table : List (String × List (ExtSpec α))) :
    ∀ taken : List String,
      extNames (filterTable b table taken).1 =
        dedupFirstAux taken
          ((extNames table).filter (fun n => decide (n ∉ b))) := by
  induction table with
  | nil => intro taken; rfl
  | cons p rest ih =>
    intro taken
    obtain ⟨path, specs⟩ := p
    unfold filterTable
    simp only [extNames, List.filter_append]
    rw [filterSpecList_names b specs taken, ih _]
    rw [dedupFirstAux_append]
    congr 1
    apply dedupFirstAux_congr
    intro x
    rw [filterSpecList_taken_mem b specs taken x, dedupSeen_mem]
    rw [filterSpecList_names b specs taken]

/-- Every contributed spec is either accepted into the filtered table or
warned about: the counts add up, so filtering never fails. -/
theorem filterTable_length {α : Type} (b : List String)
    (table : List (String × List (ExtSpec α))) :
    ∀ taken : List String,
      (extNames table).length =
        (extNames (filterTable b table taken).1).length +
          (filterTable b table taken).2.length := by
  induction table with
  | nil => intro taken; rfl
  | cons p rest ih =>
    intro taken
    obtain ⟨path, specs⟩ := p
    unfold filterTable
    simp only [extNames, List.length_append, List.length_map]
    have h1 := filterSpecList_length b specs taken
    have h2 := ih (filterSpecList b specs taken).2.1
    omega

/-- Re-targeting every factory payload leaves each project's formatted
help entries unchanged: the formatter reads only names and help
strings. -/
theorem format_external_specs_mapFactory {α β : Type} (f : α → β)
    (width : Nat) (specs : List (ExtSpec α)) :
    format_external_specs width
        (specs.map (fun s =>
          ({ name := s.name, help := s.help, projectName := s.projectName,
             factory := f s.factory } : ExtSpec β))) =
      format_external_specs width specs := by
  induction specs with
  | nil => rfl
  | cons s rest ih =>
    simp only [List.map_cons, format_external_specs]
    rw [ih]
    rfl

/-! ## Claims -/

/-- C1: the Zephyr-base resolver matches the six-rule precedence table,
with rule 1 (command-line override wins) firing for every *present*
override — falsified at the explicit input `clo = some ""` (override
supplied but empty): the code treats the empty override as absent (Python
truthiness of `args.zephyr_base`) and resolves from the environment
instead, while the table as claimed picks the command-line origin. -/
theorem claim_C1_counterexample :
    set_zephyr_base_resolve (fun s => s) (some "") (some "/env/zephyr")
        none none ≠
      zephyrBaseSpecTable (fun s => s) (some "") (some "/env/zephyr")
        none none := by
  decide

/-- C1 (amended): for every combination of the four inputs, the resolver
chooses the value, origin, warning count, and error report given by the
six-rule precedence table, where rule 1 fires exactly when the
command-line override is supplied *and non-empty*; an empty override falls
through to rules 2-6.  In particular rule 4's warning is emitted exactly
once when ENV wins by default and CFG is present with a different absolute
path, and rule 6 reports an error with origin unset. -/
theorem claim_C1 (abspath : String → String)
    (clo zb_env zb_prefer zb_config : Option String) :
    set_zephyr_base_resolve abspath clo zb_env zb_prefer zb_config =
      zephyrBaseSpecTableAmended abspath clo zb_env zb_prefer zb_config := by
  cases clo with
  | none => rfl
  | some v =>
    by_cases hv : v = ""
    · subst hv
      rfl
    · simp [set_zephyr_base_resolve, zephyrBaseSpecTableAmended, zbTruthy, hv]

/-- C10: a supplied-but-empty command-line override is treated exactly as
if no override were given: resolution produces the same result as with no
override at all, and in particular never reports the command-line
origin. -/
theorem claim_C10 (abspath : String → String)
    (zb_env zb_prefer zb_config : Option String) :
    set_zephyr_base_resolve abspath (some "") zb_env zb_prefer zb_config =
        set_zephyr_base_resolve abspath none zb_env zb_prefer zb_config ∧
      (set_zephyr_base_resolve abspath (some "") zb_env zb_prefer
          zb_config).origin ≠ ZbOrigin.commandline := by
  have h : set_zephyr_base_resolve abspath (some "") zb_env zb_prefer
      zb_config =
      set_zephyr_base_resolve abspath none zb_env zb_prefer zb_config := rfl
  exact ⟨h, h ▸ resolve_none_origin_ne_commandline abspath zb_env zb_prefer
    zb_config⟩

/-- C7: whenever the resolver resolves a value, the environment variable
`ZEPHYR_BASE` is set to that value as an absolute path and no other
environment entry changes; when nothing resolves, the environment is left
unchanged, an error is reported, and the invocation continues (the
dispatch event is still in the trace); and every environment write in the
dispatch-path trace occurs strictly before the dispatch event. -/
theorem claim_C7 (abspath : String → String)
    (environ : String → Option String)
    (clo zb_env zb_prefer zb_config : Option String) :
    (∀ zb,
      (set_zephyr_base_resolve abspath clo zb_env zb_prefer zb_config).value
          = some zb →
        set_zephyr_base_env abspath environ
            (set_zephyr_base_resolve abspath clo zb_env zb_prefer zb_config)
            "ZEPHYR_BASE" = some (abspath zb) ∧
        ∀ k, k ≠ "ZEPHYR_BASE" →
          set_zephyr_base_env abspath environ
            (set_zephyr_base_resolve abspath clo zb_env zb_prefer zb_config)
            k = environ k) ∧
    ((set_zephyr_base_resolve abspath clo zb_env zb_prefer zb_config).value
        = none →
      set_zephyr_base_env abspath environ
          (set_zephyr_base_resolve abspath clo zb_env zb_prefer zb_config)
          = environ ∧
      (set_zephyr_base_resolve abspath clo zb_env zb_prefer
          zb_config).errored = true) ∧
    Ev.dispatch ∈ main_dispatch_trace abspath
      (set_zephyr_base_resolve abspath clo zb_env zb_prefer zb_config) ∧
    (∀ i j k v,
      (main_dispatch_trace abspath
        (set_zephyr_base_resolve abspath clo zb_env zb_prefer
          zb_config)).get? i = some (Ev.envWrite k v) →
      (main_dispatch_trace abspath
        (set_zephyr_base_resolve abspath clo zb_env zb_prefer
          zb_config)).get? j = some Ev.dispatch →
      i < j) := by
  set r := set_zephyr_base_resolve abspath clo zb_env zb_prefer zb_config
    with hr
  refine ⟨?_, ?_, ?_, ?_⟩
  · intro zb hzb
    constructor
    · simp [set_zephyr_base_env, hzb]
    · intro k hk
      simp [set_zephyr_base_env, hzb, hk]
  · intro hnone
    refine ⟨?_, ?_⟩
    · simp [set_zephyr_base_env, hnone]
    · exact hr ▸ resolve_value_none_errored abspath clo zb_env zb_prefer
        zb_config (hr ▸ hnone)
  · simp [main_dispatch_trace]
  · intro i j k v hi hj
    have hnd := dispatch_not_mem_zb_events abspath r
    set evs := set_zephyr_base_events abspath r with hevs
    have hjlen : evs.length ≤ j := by
      by_contra hlt
      push_neg at hlt
      rw [main_dispatch_trace, List.get?_append hlt] at hj
      exact hnd (List.get?_mem hj)
    have hine : i ≠ evs.length := by
      intro hieq
      rw [main_dispatch_trace, hieq, List.get?_append_right (Nat.le_refl _)]
        at hi
      simp at hi
    have hilen : i < evs.length + 1 := by
      have := List.get?_eq_some.mp hi
      obtain ⟨hlt, _⟩ := this
      simpa [main_dispatch_trace] using hlt
    omega

/-- C7 witness: with the override `zb` supplied, the environment ends up
with `ZEPHYR_BASE = zb`, and the concrete trace's environment write (index
0) precedes its dispatch event (index 1). -/
theorem claim_C7_witness :
    set_zephyr_base_env (fun s => s) (fun _ => none)
        (set_zephyr_base_resolve (fun s => s) (some "zb") none none none)
        "ZEPHYR_BASE" = some "zb" ∧
      (0 : Nat) < 1 :=
  ⟨((claim_C7 (fun s => s) (fun _ => none) (some "zb") none none none).1 "zb"
      (by decide)).1,
    (claim_C7 (fun s => s) (fun _ => none) (some "zb") none none none).2.2.2
      0 1 "ZEPHYR_BASE" "zb" (by decide) (by decide)⟩

/-- C2: the two-mode help layout as claimed — packed exactly when the
thing's length is strictly less than `help_offset - 1` — is falsified at
the explicit boundary input: width 75 (so `help_offset = 24`) and a thing
of length 23.  The code packs the help onto the thing's row
(`len(thing) > help_offset - 1` is false at 23), while the claimed layout
puts the thing on its own row. -/
theorem claim_C2_counterexample :
    claimThingLayout "  abcdefghijklmnopqrst:" (some "hello") 75 ≠
      format_thing_and_help "  abcdefghijklmnopqrst:" (some "hello") 75 := by
  decide

/-- C2 (amended): for every help entry, with
`help_offset = clamp(width - 20, 10, 24)`, the help text is
whitespace-normalized and wrapped to `help_offset` indentation, and the
first help line is packed onto the thing's row exactly when the thing's
length is *at most* `help_offset - 1` (the claim said strictly less than
`help_offset - 1`); otherwise the thing is placed on its own row with all
help lines indented to `help_offset`.  In particular, at width 75 a thing
of length 10 is packed and a thing of length 30 goes on its own row with
help indented by 24 spaces. -/
theorem claim_C2 :
    (∀ thing help width,
      format_thing_and_help thing help width =
        amendedThingLayout thing help width) ∧
    strLen "  abcdefg:" = 10 ∧
    format_thing_and_help "  abcdefg:" (some "some help") 75 =
      ["  abcdefg:" ++ spaces 14 ++ "some help"] ∧
    strLen "  abcdefghijklmnopqrstuvwxyzq:" = 30 ∧
    format_thing_and_help "  abcdefghijklmnopqrstuvwxyzq:" (some "some help")
        75 =
      ["  abcdefghijklmnopqrstuvwxyzq:", spaces 24 ++ "some help"] := by
  refine ⟨?_, by decide, by decide, by decide, by decide⟩
  intro thing help width
  cases help with
  | none => rfl
  | some h =>
    simp only [format_thing_and_help, amendedThingLayout]
    by_cases hle : strLen thing ≤ helpOffset width - 1
    · rw [if_neg (by omega), if_pos hle]
    · rw [if_pos (by omega), if_neg hle]

/-- C4: a dispatched command raising the restart signal (`WestUpdated`)
makes the governor re-launch the same executable with the identical
argument vector; the parent exits with the child's exit code (e.g. 7 gives
7), exits 0 when interrupted while waiting, and exits with `errno.EIO`
when the child's exit code cannot be determined. -/
theorem claim_C4 (executable : String) (argv : List String) (verbose : Nat)
    (commandName : String) :
    (∀ child,
      (main_governor executable argv verbose commandName child
          .westUpdated).spawned = some (executable :: argv)) ∧
    (main_governor executable argv verbose commandName .interrupted
        .westUpdated).exit = some 0 ∧
    (∀ c : Int,
      (main_governor executable argv verbose commandName
          (.finished (some c)) .westUpdated).exit = some c) ∧
    (main_governor executable argv verbose commandName (.finished none)
        .westUpdated).exit = some errnoEIO := by
  refine ⟨?_, rfl, fun c => rfl, rfl⟩
  intro child
  cases child <;> rfl

/-- C5: the claim that a command-context violation shows the full
diagnostic trace when verbosity is at least 1 is falsified at the explicit
input: verbosity 1, `ContextRefusal` with reason "not a workspace" and
code 42 — the code's handler for this error class prints no traceback at
any verbosity. -/
theorem claim_C5_counterexample :
    ¬ (main_governor "west" ["foo"] 1 "foo" (.finished none)
        (.contextError 42 ["not a workspace"])).traceShown = true := by
  decide

/-- C5 (amended): a command-context violation carrying exit code `c` and
reason arguments makes the process report one `log.err` line containing
the command name and the reason arguments and exit with code `c`; for
this error class neither the traceback nor the re-run hint is printed,
regardless of verbosity (and, across the whole taxonomy, the trace and
the hint are never both shown). -/
theorem claim_C5 (executable : String) (argv : List String) (verbose : Nat)
    (commandName : String) (child : ChildOutcome) (rc : Int)
    (reasonArgs : List String) :
    (main_governor executable argv verbose commandName child
        (.contextError rc reasonArgs)).exit = some rc ∧
    (main_governor executable argv verbose commandName child
        (.contextError rc reasonArgs)).errMsgs =
      [["command", commandName, "cannot be run in this context:"] ++
        reasonArgs] ∧
    (main_governor executable argv verbose commandName child
        (.contextError rc reasonArgs)).traceShown = false ∧
    (main_governor executable argv verbose commandName child
        (.contextError rc reasonArgs)).hintShown = false ∧
    (∀ r : DispatchResult,
      ¬ ((main_governor executable argv verbose commandName child
            r).traceShown = true ∧
        (main_governor executable argv verbose commandName child
            r).hintShown = true)) := by
  refine ⟨rfl, rfl, rfl, rfl, ?_⟩
  intro r
  rintro ⟨ht, hh⟩
  cases r <;> cases child <;> simp_all [main_governor]

/-- C3: the collision filter, applied in project iteration order then
per-project declaration order, drops every contributed name that is a
built-in or hidden command name (the virtual `help` included), drops every
name already accepted earlier, and accepts all others: the surviving names
are exactly the first occurrences of the non-built-in contributed names;
they are globally unique (no duplicates, and never equal to a built-in,
hidden, or `help` name); and every input spec is either accepted or
accounted for by exactly one warning, so filtering never raises a fatal
error. -/
theorem claim_C3 {α : Type} (cmdNames : List String)
    (table : List (String × List (ExtSpec α))) :
    extNames (filterTable (BUILTIN_COMMAND_NAMES cmdNames) table []).1 =
        dedupFirstAux []
          ((extNames table).filter
            (fun n => decide (n ∉ BUILTIN_COMMAND_NAMES cmdNames))) ∧
      (extNames
          (filterTable (BUILTIN_COMMAND_NAMES cmdNames) table []).1).Nodup ∧
      (∀ n ∈ extNames
          (filterTable (BUILTIN_COMMAND_NAMES cmdNames) table []).1,
        n ∉ BUILTIN_COMMAND_NAMES cmdNames) ∧
      (∀ n ∈ extNames
          (filterTable (BUILTIN_COMMAND_NAMES cmdNames) table []).1,
        n ≠ "help") ∧
      (extNames
            (filterTable (BUILTIN_COMMAND_NAMES cmdNames) table []).1).length +
          (filterTable (BUILTIN_COMMAND_NAMES cmdNames) table []).2.length =
        (extNames table).length := by
  have hnames := filterTable_names (BUILTIN_COMMAND_NAMES cmdNames) table []
  have hmem : ∀ n ∈ extNames
      (filterTable (BUILTIN_COMMAND_NAMES cmdNames) table []).1,
      n ∉ BUILTIN_COMMAND_NAMES cmdNames := by
    intro n hn
    rw [hnames] at hn
    have hfil := dedupFirstAux_subset _ _ n hn
    have hsplit := List.mem_filter.mp hfil
    simpa using hsplit.2
  refine ⟨hnames, ?_, hmem, ?_, ?_⟩
  · rw [hnames]
    exact (dedupFirstAux_nodup _ []).1
  · intro n hn heq
    exact hmem n hn (heq ▸ List.mem_cons_self "help" cmdNames)
  · have := filterTable_length (BUILTIN_COMMAND_NAMES cmdNames) table []
    omega

/-- C3 witness: on a concrete two-project table, the filter keeps exactly
the first `foo`, which is not a built-in name. -/
theorem claim_C3_witness :
    extNames
        (filterTable (BUILTIN_COMMAND_NAMES ["status"])
          [("p1", [(⟨"status", none, "p1", 0⟩ : ExtSpec Nat),
                   ⟨"foo", none, "p1", 0⟩]),
           ("p2", [⟨"foo", none, "p2", 0⟩, ⟨"help", none, "p2", 0⟩])]
          []).1 = ["foo"] ∧
      ("foo" : String) ∉ BUILTIN_COMMAND_NAMES ["status"] := by
  have h := claim_C3 ["status"]
    [("p1", [(⟨"status", none, "p1", 0⟩ : ExtSpec Nat),
             ⟨"foo", none, "p1", 0⟩]),
     ("p2", [⟨"foo", none, "p2", 0⟩, ⟨"help", none, "p2", 0⟩])]
  refine ⟨by decide, h.2.2.1 "foo" (by decide)⟩

/-- C6: building the top-level parser registers every external command as
a bare placeholder (name only, `add_help=False`, no options), and neither
the registration nor the externals section of top-level help depends in
any way on the specs' factory payloads: re-targeting every factory through
an arbitrary function leaves both outputs unchanged, so no factory is
invoked by parser construction or top-level help. -/
theorem claim_C6 {α β : Type} (f : α → β)
    (externals : List (String × List (ExtSpec α))) (width : Nat) :
    register_externals (mapFactories f externals) =
        register_externals externals ∧
      format_external_section width (mapFactories f externals) =
        format_external_section width externals ∧
      register_externals externals =
        (extNames externals).map
          (fun n => { name := n, addHelp := false, options := [] }) := by
  refine ⟨?_, ?_, ?_⟩
  · induction externals with
    | nil => rfl
    | cons p rest ih =>
      simp only [mapFactories, List.map_cons, register_externals,
        List.map_map] at *
      rw [ih]
      rfl
  · induction externals with
    | nil => rfl
    | cons p rest ih =>
      simp only [mapFactories, List.map_cons, format_external_section] at *
      rw [ih, format_external_specs_mapFactory]
      cases p.2 <;> rfl
  · induction externals with
    | nil => rfl
    | cons p rest ih =>
      simp only [register_externals, extNames, List.map_append,
        List.map_map]
      rw [ih]
      rfl

/-- C8: when `commands.allow_external` is configured off, loading the
externals yields the empty table (discovery is not even consulted); and
when discovery fails with a malformed-config or file-not-found error, the
`try`/`except` in `main` degrades to the empty table instead of failing
the invocation. -/
theorem claim_C8 {α : Type} (builtins : List String) :
    (∀ discover :
        Except DiscoveryError (List (String × List (ExtSpec α))),
      get_external_commands (some false) discover builtins = .ok ([], []) ∧
        main_load_externals (some false) discover builtins = ([], [])) ∧
      (∀ (allowExternal : Option Bool) (e : DiscoveryError),
        main_load_externals (α := α) allowExternal (.error e) builtins =
          ([], [])) := by
  constructor
  · intro discover
    exact ⟨rfl, rfl⟩
  · intro allowExternal e
    cases allowExternal with
    | none => rfl
    | some b => cases b <;> rfl

/-- C9: the claimed invariant — after top-level parsing either a handler
is bound and parsing returns, or the process exits 1 with usage — is
falsified at the explicit input `argv = ["--version"]`: `parse_args`
prints version information and exits 0 right after parsing, so neither
alternative holds. -/
theorem claim_C9_counterexample :
    ¬ c9ClaimProperty
        (parse_args_model (BUILTIN_COMMAND_NAMES ["list"]) ["--version"]) := by
  intro hcp
  unfold c9ClaimProperty at hcp
  have h : parse_args_model (BUILTIN_COMMAND_NAMES ["list"]) ["--version"] =
      ParseOutcome.exited 0 false := by decide
  rw [h] at hcp
  rcases hcp with ⟨a, u, hau⟩ | hexit
  · simp at hau
  · simp at hexit

/-- C9 (amended): for every raw argument vector, after top-level parsing
exactly one of the following holds (the alternatives are mutually
exclusive, being distinct outcomes): a recognized command handler is bound
and parsing returns normally; the process exits 0 (help or version was
requested during parsing); the process exits 1 after printing top-level
usage to the error stream (no command given, so no handler was bound); or
the parser rejects the input (unrecognized command positional or missing
option value) and exits 2 with usage on the error stream. -/
theorem claim_C9 (names : List String) (argv : List String) :
    (∃ args unknown,
        parse_args_model names argv = ParseOutcome.parsed args unknown ∧
          args.command.isSome) ∨
      parse_args_model names argv = ParseOutcome.exited 0 false ∨
      parse_args_model names argv = ParseOutcome.exited 1 true ∨
      parse_args_model names argv = ParseOutcome.exited 2 true := by
  unfold parse_args_model
  cases hscan : scanArgs names argv
      { zephyr_base := none, verbose := 0, version := false, command := none }
      [] with
  | error e => cases e <;> simp
  | ok pr =>
    obtain ⟨args, unknown⟩ := pr
    by_cases hv : args.version
    · simp [hv]
    · cases hc : args.command with
      | none => simp [hv, hc]
      | some c =>
        left
        exact ⟨args, unknown, by simp [hv, hc], by simp [hc]⟩

end West
